import Mathlib

/-!
Verification of the session state machine and turn-orchestration engine of a
play-by-post RPG bot (src/bot.py).  The Python session-state dict and the pure
logic acting on it are embedded as Lean definitions; the external side effects
(Discord sends, the OpenAI narration call, PostgreSQL persistence) are
represented by an explicit list of effect values so that theorems can state
which side effects a code path produces.  Python dicts keyed by strings are
modelled as association lists in insertion order, timestamps as natural
numbers, and numeric JSON values as integers.
-/

/-- One entry of the bounded action history: models the dict appended to
state["history"] in on_message (src/bot.py lines 388-392). -/
structure HistEntry where
  player : String
  action : String
  response : String
deriving DecidableEq

/-- A character sheet, shaped like the blank sheet created for a newly joined
player in on_message (src/bot.py lines 369-374). -/
structure CharSheet where
  attributes : List (String × Int)
  skills : List (String × Int)
  inventory : List String
  notes : String
deriving DecidableEq

/-- The session state blob, shaped like DEFAULT_STATE (src/bot.py lines
26-36). -/
structure GameState where
  players : List String
  current_turn : Nat
  round : Nat
  turn_start_time : Nat
  extra_turn_round : Option Nat
  characters : List (String × CharSheet)
  last_action : String
  scene : String
  history : List HistEntry
deriving DecidableEq

/-- Python dict lookup d.get(k): the value at the first matching key. -/
def getKey {α : Type} (k : String) : List (String × α) → Option α
  | [] => none
  | kv :: rest => if kv.1 = k then some kv.2 else getKey k rest

/-- Python dict assignment d[k] = v: replaces the value at an existing key in
place, otherwise appends the new key at the end (insertion order). -/
def setKey {α : Type} (k : String) (v : α) : List (String × α) → List (String × α)
  | [] => [(k, v)]
  | kv :: rest => if kv.1 = k then (k, v) :: rest else kv :: setKey k v rest

/-- MAX_HISTORY (src/bot.py line 38). -/
def MAX_HISTORY : Nat := 20

/-- TURN_TIMEOUT_HOURS (src/bot.py line 17). -/
def TURN_TIMEOUT_HOURS : Nat := 24

/-- TURN_TIMEOUT_SECONDS (src/bot.py line 18). -/
def TURN_TIMEOUT_SECONDS : Nat := TURN_TIMEOUT_HOURS * 3600

/-- current_player (src/bot.py lines 214-217).  Python raises IndexError when
current_turn is out of range; the embedding returns none there as well as for
an empty roster. -/
def current_player (s : GameState) : Option String :=
  if s.players.isEmpty then none else s.players[s.current_turn]?

/-- advance_turn (src/bot.py lines 220-228), with the wall-clock time passed
explicitly.  A roster of at most one player only refreshes the turn clock;
otherwise the turn pointer is incremented, wrapping to 0 with a round
increment when it reaches the roster length. -/
def advance_turn (now : Nat) (s : GameState) : GameState :=
  if s.players.length ≤ 1 then
    { s with turn_start_time := now }
  else if s.players.length ≤ s.current_turn + 1 then
    { s with current_turn := 0, round := s.round + 1, turn_start_time := now }
  else
    { s with current_turn := s.current_turn + 1, turn_start_time := now }

/-- The history append plus FIFO eviction performed in on_message
(src/bot.py lines 388-394): append, then keep only the last MAX_HISTORY
entries when the bound is exceeded. -/
def appendHistory (h : List HistEntry) (e : HistEntry) : List HistEntry :=
  if MAX_HISTORY < (h ++ [e]).length then
    (h ++ [e]).drop ((h ++ [e]).length - MAX_HISTORY)
  else
    h ++ [e]

/-- A word character of the regex class backslash-w (ASCII reading):
letters, digits, underscore. -/
def isWordChar (c : Char) : Bool := c.isAlphanum || c = '_'

/-- Decimal digit string to Nat, as Python int() on a digit-only string. -/
def natOfDigits (d : List Char) : Nat :=
  d.foldl (fun n c => n * 10 + (c.toNat - 48)) 0

/-- Matches a literal character sequence at the head of the input, returning
the remainder on success. -/
def matchLit : List Char → List Char → Option (List Char)
  | [], l => some l
  | _ :: _, [] => none
  | p :: ps, c :: cs => if c = p then matchLit ps cs else none

/-- One attempted match of the regex \[Skill (\w+) \+(\d+)\] at the head of
the input (update_skills_from_ai, src/bot.py line 327): the literal
"[Skill ", one or more word characters, the literal " +", one or more
digits, then "]".  Returns the captured groups and the remaining input. -/
def tryMatch (l : List Char) : Option (String × Nat × List Char) :=
  match matchLit ("[Skill ".toList) l with
  | none => none
  | some r1 =>
    if (r1.takeWhile isWordChar).isEmpty then none
    else
      match matchLit (" +".toList) (r1.dropWhile isWordChar) with
      | none => none
      | some r3 =>
        if (r3.takeWhile Char.isDigit).isEmpty then none
        else
          match matchLit ("]".toList) (r3.dropWhile Char.isDigit) with
          | none => none
          | some r5 =>
            some (String.mk (r1.takeWhile isWordChar),
                  natOfDigits (r3.takeWhile Char.isDigit), r5)

/-- re.findall of the skill-marker regex: scan left to right, taking each
leftmost non-overlapping match and continuing after its end.  The fuel
argument (always at least the input length, which shrinks by at least one
character per step) keeps the recursion structural. -/
def scanAux : Nat → List Char → List (String × Nat)
  | 0, _ => []
  | _, [] => []
  | fuel + 1, c :: cs =>
    match tryMatch (c :: cs) with
    | some (n, v, rest) => (n, v) :: scanAux fuel rest
    | none => scanAux fuel cs

/-- All skill markers found in a text, in order (re.findall in
update_skills_from_ai, src/bot.py line 327). -/
def scanSkills (l : List Char) : List (String × Nat) := scanAux l.length l

/-- One iteration of the marker loop in update_skills_from_ai (src/bot.py
lines 328-331): set the skill to the maximum of its current value
(defaulting to 0 when absent) and the marker value. -/
def applyMarker (skills : List (String × Int)) (m : String × Nat) : List (String × Int) :=
  setKey m.1 (max ((getKey m.1 skills).getD 0) (m.2 : Int)) skills

/-- The whole marker loop of update_skills_from_ai on one character sheet
(src/bot.py lines 327-331): fold every matched marker over the skills
mapping. -/
def applyMarkers (c : CharSheet) (aiText : String) : CharSheet :=
  { c with skills := (scanSkills aiText.toList).foldl applyMarker c.skills }

/-- update_skills_from_ai (src/bot.py lines 323-331): no-op when the acting
player has no character sheet, otherwise apply every matched marker to the
player's skills mapping. -/
def update_skills_from_ai (s : GameState) (aiText : String) (player : String) : GameState :=
  match getKey player s.characters with
  | none => s
  | some char =>
    { s with characters := setKey player (applyMarkers char aiText) s.characters }

/-- The Python substring test "[EXTRA TURN]" in ai_response
(src/bot.py line 398). -/
def hasExtraTurnTag (t : String) : Bool :=
  decide ("[EXTRA TURN]".toList <:+: t.toList)

/-- The extra-turn resolution step of on_message (src/bot.py lines 398-406):
a grant requires the marker and that no extra turn was already granted this
round; on a grant the turn holds (turn clock reset, grant round recorded),
otherwise a normal advance fires.  The Bool reports whether the grant was
taken. -/
def resolveExtraTurn (now : Nat) (ai : String) (s : GameState) : GameState × Bool :=
  if hasExtraTurnTag ai = true ∧ s.extra_turn_round ≠ some s.round then
    ({ s with turn_start_time := now, extra_turn_round := some s.round }, true)
  else
    (advance_turn now s, false)

/-- Python str() of a value that may be None (f-string rendering). -/
def optStr : Option String → String
  | none => "None"
  | some s => s

/-- Python str() of a string-to-int dict, without escape handling inside
keys. -/
def pyDictRepr (m : List (String × Int)) : String :=
  "\x7b" ++ String.intercalate ", "
    (m.map (fun kv => "\x27" ++ kv.1 ++ "\x27: " ++ toString kv.2)) ++ "\x7d"

/-- Python str() of a list of strings, without escape handling inside
items. -/
def pyListRepr (l : List String) : String :=
  "[" ++ String.intercalate ", " (l.map (fun it => "\x27" ++ it ++ "\x27")) ++ "]"

/-- DM_SYSTEM_PROMPT (src/bot.py lines 40-72). -/
def DM_SYSTEM_PROMPT : String :=
  "\nYou are the Dungeon Master for a narrative-focused, play-by-post RPG designed for Discord.\nThe game emphasizes storytelling, uses light dice rolling for uncertainty, and allows dynamic, in-play character creation. Only one player acts at a time.\n\nOUTPUT RULES\n- Announce whose turn it is to act.\n- Keep narration concise: 2–4 short paragraphs.\n- Describe surroundings and what is happening around the players more than what the players do.\n- Do not overfill player actions or dialogue; let players drive intent.\n- If the player input is very brief, you may expand it slightly to keep flow.\n- Keep status updates short when included.\n\nTURN RULES\n- Only the active player may act; other players may use game commands like !character.\n- You may grant the same player two turns in a row when the narrative clearly requires it (e.g., immediate world reaction that calls for a quick counter).\n- Allow supportive commands (e.g., !character) outside a player\x27s turn.\n- New players may join at any time.\n- If a player times out, resolve their turn conservatively.\n- If you grant a same-player follow-up, include the tag [EXTRA TURN] at the end of your response so the system keeps the turn. Only one extra turn is allowed per round.\n- End the turn by asking the next player what they do.\n- Do not allow actions that are clearly impossible.\n\nMECHANICS\n- Characters are dynamic: attributes, skills, and inventory appear as needed.\n- Default roll: 2d6 + relevant attribute + relevant skill.\n- 10+ success; 7–9 success with complication; 6 or lower failure.\n- On failure: relevant skill improves by +1 and the story advances with a setback.\n- Combat/conflict is narrative-first.\n\nPACING\n- Limit how many events happen in a single response.\n- Make player actions and choices feel impactful.\n"

/-- build_game_context (src/bot.py lines 237-262): scene, round, turn order
with the current player marked, and the current player's character sheet when
one exists. -/
def build_game_context (s : GameState) : String :=
  let base := ["CURRENT SCENE: " ++ s.scene, "\nROUND: " ++ toString s.round]
  let withOrder :=
    if s.players.isEmpty then base
    else
      base ++ ["\nTURN ORDER:\n" ++ String.intercalate "\n"
        (s.players.enum.map (fun ip =>
          "  " ++ toString (ip.1 + 1) ++ ". " ++ ip.2 ++
            (if ip.1 = s.current_turn then " (CURRENT)" else "")))]
  let withChar :=
    match current_player s with
    | none => withOrder
    | some cur =>
      if cur = "" then withOrder
      else
        match getKey cur s.characters with
        | none => withOrder
        | some c =>
          withOrder ++ ["\nCURRENT CHARACTER:\n" ++ "  " ++ cur ++ ": Attributes=" ++
            pyDictRepr c.attributes ++ ", Skills=" ++ pyDictRepr c.skills ++
            ", Inventory=" ++ pyListRepr c.inventory]
  String.intercalate "\n" withChar

/-- A role-tagged chat message sent to the narration service. -/
structure Msg where
  role : String
  content : String
deriving DecidableEq

/-- build_history_messages (src/bot.py lines 265-271): the last MAX_HISTORY
history entries, each rendered as a user action message followed by the
assistant narration. -/
def build_history_messages (s : GameState) : List Msg :=
  (s.history.drop (s.history.length - MAX_HISTORY)).foldr
    (fun e acc =>
      { role := "user", content := e.player ++ " acts: " ++ e.action } ::
      { role := "assistant", content := e.response } :: acc) []

/-- The full message payload assembled by call_ai_dm (src/bot.py lines
302-311): system prompt plus game context, then windowed history, then the
new action. -/
def call_ai_dm_messages (s : GameState) (player action : String) : List Msg :=
  { role := "system",
    content := DM_SYSTEM_PROMPT ++ "\n\nCURRENT GAME STATE:\n" ++ build_game_context s } ::
  (build_history_messages s ++
    [{ role := "user", content := player ++ " acts: " ++ action }])

/-- An externally visible side effect of one unit of work: an outbound chat
message, a call to the narration service, or a state-store write. -/
inductive Effect where
  | reply (msg : String)
  | narration
  | persist (s : GameState)
deriving DecidableEq

/-- timeout_checker (src/bot.py lines 334-349): a lone (or empty) roster only
refreshes the turn clock; otherwise, once the elapsed time since the turn
started reaches the timeout threshold, the pre-advance current player is
named in a skip notification (sent when the game channel is found), the turn
advances, and the state is persisted.  No narration call occurs. -/
def timeout_checker (now : Nat) (channelFound : Bool) (s : GameState) : GameState × List Effect :=
  if s.players.length ≤ 1 then
    ({ s with turn_start_time := now },
     [Effect.persist ({ s with turn_start_time := now })])
  else if ((now : Int) - (s.turn_start_time : Int)) < (TURN_TIMEOUT_SECONDS : Int) then
    (s, [])
  else
    (advance_turn now s,
     (if channelFound then
        [Effect.reply ("[TIMEOUT] **" ++ optStr (current_player s) ++
          " hesitates, losing precious seconds.**")]
      else []) ++ [Effect.persist (advance_turn now s)])

/-- The blank character sheet created for a newly joined player
(src/bot.py lines 369-374). -/
def blankChar : CharSheet :=
  { attributes := [], skills := [], inventory := [], notes := "" }

/-- The auto-join prefix of on_message (src/bot.py lines 367-375): a first
time actor is appended to the roster with a blank sheet and the state is
persisted at once. -/
def joinStep (player : String) (s : GameState) : GameState × List Effect :=
  if player ∈ s.players then (s, [])
  else
    ({ s with players := s.players ++ [player],
              characters := setKey player blankChar s.characters },
     [Effect.persist ({ s with players := s.players ++ [player],
                               characters := setKey player blankChar s.characters })])

/-- The out-of-turn rejection reply (src/bot.py line 378). -/
def notYourTurnMsg (s : GameState) : String :=
  "It is not your turn. Current turn: **" ++ optStr (current_player s) ++ "**"

/-- on_message for a non-bot message in the game channel (src/bot.py lines
359-415), with the narration response and wall-clock time passed explicitly:
auto-join, turn validation, narration call, last-action digest, history
append with eviction, skill updates, extra-turn resolution or advance,
next-turn announcement, final persistence. -/
def on_message (ai : String) (now : Nat) (player content : String) (s : GameState) :
    GameState × List Effect :=
  let js := joinStep player s
  let s1 := js.1
  if 1 < s1.players.length ∧ current_player s1 ≠ some player then
    (s1, js.2 ++ [Effect.reply (notYourTurnMsg s1)])
  else
    let s2 := { s1 with last_action :=
      "**" ++ player ++ ":** " ++ content.take 100 ++ "\n" ++ ai.take 200 }
    let entry : HistEntry := { player := player, action := content, response := ai }
    let s3 := { s2 with history := appendHistory s2.history entry }
    let s4 := update_skills_from_ai s3 ai player
    let res := resolveExtraTurn now ai s4
    let s5 := res.1
    let announce : List Effect :=
      match current_player s5 with
      | none => []
      | some np =>
        if np ≠ "" ∧ 1 < s5.players.length then
          [Effect.reply ((if res.2 then "**Extra turn: " else "**Next turn: ") ++ np ++ "**")]
        else []
    (s5, js.2 ++ [Effect.narration, Effect.reply ai] ++ announce ++ [Effect.persist s5])

/-- The turn-pointer self-healing step at the end of load_state (src/bot.py
lines 193-194), on the stored turn pointer (a JSON integer, hence Int): a
pointer at or past the roster length is reset to 0. -/
def load_state_heal (players : List String) (current_turn : Int) : Int :=
  if (players.length : Int) ≤ current_turn then 0 else current_turn

/-! ## Association-list lemmas -/

/-- Looking up the key just written returns the written value. -/
theorem getKey_setKey_self {α : Type} (k : String) (v : α) (m : List (String × α)) :
    getKey k (setKey k v m) = some v := by
  induction m with
  | nil => simp [getKey, setKey]
  | cons kv rest ih =>
    by_cases h : kv.1 = k
    · simp [getKey, setKey, h]
    · simp [getKey, setKey, h, ih]

/-- Writing one key leaves every other key's lookup unchanged. -/
theorem getKey_setKey_ne {α : Type} (k q : String) (v : α) (m : List (String × α))
    (h : q ≠ k) : getKey q (setKey k v m) = getKey q m := by
  induction m with
  | nil =>
    simp only [setKey, getKey]
    rw [if_neg (Ne.symm h)]
  | cons kv rest ih =>
    by_cases hk : kv.1 = k
    · simp only [setKey, if_pos hk, getKey]
      rw [if_neg (Ne.symm h), if_neg (by rw [hk]; exact Ne.symm h)]
    · simp only [setKey, if_neg hk, getKey]
      by_cases hq : kv.1 = q
      · rw [if_pos hq, if_pos hq]
      · rw [if_neg hq, if_neg hq, ih]

/-! ## Sample states used by the witnesses -/

/-- A two-player session at the start of round 1, Ava to act. -/
def wState : GameState :=
  { players := ["Ava", "Bo"], current_turn := 0, round := 1, turn_start_time := 50,
    extra_turn_round := none, characters := [("Ava", blankChar), ("Bo", blankChar)],
    last_action := "", scene := "The adventure begins...", history := [] }

/-- A lone-player session. -/
def wSolo : GameState :=
  { players := ["Ava"], current_turn := 0, round := 1, turn_start_time := 50,
    extra_turn_round := none, characters := [("Ava", blankChar)],
    last_action := "", scene := "The adventure begins...", history := [] }

/-! ## Claims -/

/-- C8: for a roster with at most one participant, advance_turn only resets
the turn-start timestamp; the turn pointer, the round and every other field
are unchanged. -/
theorem advance_lone_roster_frame (now : Nat) (s : GameState)
    (h : s.players.length ≤ 1) :
    advance_turn now s = { s with turn_start_time := now } ∧
    (advance_turn now s).current_turn = s.current_turn ∧
    (advance_turn now s).round = s.round := by
  unfold advance_turn
  rw [if_pos h]
  exact ⟨rfl, rfl, rfl⟩

theorem advance_lone_roster_frame_witness :
    advance_turn 3 wSolo = { wSolo with turn_start_time := 3 } ∧
    (advance_turn 3 wSolo).current_turn = wSolo.current_turn ∧
    (advance_turn 3 wSolo).round = wSolo.round :=
  advance_lone_roster_frame 3 wSolo (by decide)

/-- C9: the context payload (state block plus windowed history messages) is a
pure function of the session state and the new action text that never reads
the turn timestamp: replacing the timestamp yields a byte-identical
payload. -/
theorem context_builder_deterministic (s : GameState) (t : Nat) (player action : String) :
    call_ai_dm_messages ({ s with turn_start_time := t }) player action =
      call_ai_dm_messages s player action := by
  cases s
  rfl

/-- C1: extra turns are capped at one per round: with the marker present in
the narration response, the grant is taken exactly when extra_turn_round
differs from the current round; a successful grant keeps the turn pointer,
resets the turn clock and records the current round; a repeat request in the
same round fails and a normal advance fires instead. -/
theorem extra_turn_capped_per_round (now : Nat) (ai : String) (s : GameState)
    (htag : hasExtraTurnTag ai = true) :
    (s.extra_turn_round ≠ some s.round →
       resolveExtraTurn now ai s =
         ({ s with turn_start_time := now, extra_turn_round := some s.round }, true) ∧
       (resolveExtraTurn now ai s).1.current_turn = s.current_turn) ∧
    (s.extra_turn_round = some s.round →
       resolveExtraTurn now ai s = (advance_turn now s, false)) := by
  constructor
  · intro hne
    unfold resolveExtraTurn
    rw [if_pos ⟨htag, hne⟩]
    exact ⟨rfl, rfl⟩
  · intro heq
    unfold resolveExtraTurn
    rw [if_neg (fun hc => hc.2 heq)]

theorem extra_turn_capped_per_round_witness :
    resolveExtraTurn 7 "Onward! [EXTRA TURN]" wState =
      ({ wState with turn_start_time := 7, extra_turn_round := some wState.round }, true) ∧
    (resolveExtraTurn 7 "Onward! [EXTRA TURN]" wState).1.current_turn = wState.current_turn :=
  (extra_turn_capped_per_round 7 "Onward! [EXTRA TURN]" wState (by decide)).1 (by decide)

/-! ## Turn rotation (C2) -/

/-- advance_turn never changes the roster. -/
theorem advance_turn_players (now : Nat) (s : GameState) :
    (advance_turn now s).players = s.players := by
  unfold advance_turn
  split
  · rfl
  · split <;> rfl

/-- advance_turn always resets the turn-start timestamp. -/
theorem advance_turn_time (now : Nat) (s : GameState) :
    (advance_turn now s).turn_start_time = now := by
  unfold advance_turn
  split
  · rfl
  · split <;> rfl

/-- Single-step behaviour of advance_turn on a multi-player roster. -/
theorem advance_turn_step (now : Nat) (s : GameState) (h1 : 1 < s.players.length) :
    (s.players.length ≤ s.current_turn + 1 →
       (advance_turn now s).current_turn = 0 ∧
       (advance_turn now s).round = s.round + 1) ∧
    (s.current_turn + 1 < s.players.length →
       (advance_turn now s).current_turn = s.current_turn + 1 ∧
       (advance_turn now s).round = s.round) := by
  unfold advance_turn
  rw [if_neg (by omega)]
  constructor
  · intro h2
    rw [if_pos h2]
    exact ⟨rfl, rfl⟩
  · intro h2
    rw [if_neg (by omega)]
    exact ⟨rfl, rfl⟩

/-- Arithmetic of a wrapping increment: when the residue is about to reach
the modulus, the successor wraps to residue 0 and the quotient grows. -/
theorem mod_succ_of_wrap {m N : Nat} (h1 : 1 < N) (hm : m % N + 1 = N) :
    (m + 1) % N = 0 ∧ (m + 1) / N = m / N + 1 := by
  have hmod : (m + 1) % N = 0 := by
    rw [Nat.add_mod, Nat.mod_eq_of_lt h1, hm, Nat.mod_self]
  refine ⟨hmod, ?_⟩
  rw [Nat.succ_div, if_pos (Nat.dvd_of_mod_eq_zero hmod)]

/-- Arithmetic of a non-wrapping increment: residue grows, quotient is
unchanged. -/
theorem mod_succ_of_no_wrap {m N : Nat} (h1 : 1 < N) (hm : m % N + 1 < N) :
    (m + 1) % N = m % N + 1 ∧ (m + 1) / N = m / N := by
  have hmod : (m + 1) % N = m % N + 1 := by
    rw [Nat.add_mod, Nat.mod_eq_of_lt h1, Nat.mod_eq_of_lt hm]
  refine ⟨hmod, ?_⟩
  have hnd : ¬ N ∣ m + 1 := by
    intro hd
    have h0 : (m + 1) % N = 0 := Nat.dvd_iff_mod_eq_zero.mp hd
    omega
  rw [Nat.succ_div, if_neg hnd, Nat.add_zero]

/-- Closed form for k successive advances from a valid multi-player state:
the pointer moves to (start + k) mod N and the round grows by the number of
completed wraps. -/
theorem advance_turn_iterate (now : Nat) (s : GameState) (k : Nat)
    (h1 : 1 < s.players.length) (h2 : s.current_turn < s.players.length) :
    ((advance_turn now)^[k] s).players = s.players ∧
    ((advance_turn now)^[k] s).current_turn =
      (s.current_turn + k) % s.players.length ∧
    ((advance_turn now)^[k] s).round =
      s.round + (s.current_turn + k) / s.players.length := by
  induction k with
  | zero =>
    refine ⟨rfl, ?_, ?_⟩
    · simp [Nat.mod_eq_of_lt h2]
    · simp [Nat.div_eq_of_lt h2]
  | succ k ih =>
    obtain ⟨hp, hc, hr⟩ := ih
    rw [Function.iterate_succ_apply']
    have hN : 1 < ((advance_turn now)^[k] s).players.length := by rw [hp]; exact h1
    have hstep := advance_turn_step now ((advance_turn now)^[k] s) hN
    have hmodlt : (s.current_turn + k) % s.players.length < s.players.length :=
      Nat.mod_lt _ (by omega)
    refine ⟨by rw [advance_turn_players, hp], ?_, ?_⟩
    · by_cases hw : ((advance_turn now)^[k] s).players.length ≤
          ((advance_turn now)^[k] s).current_turn + 1
      · have hm : (s.current_turn + k) % s.players.length + 1 = s.players.length := by
          rw [hp, hc] at hw
          omega
        rw [(hstep.1 hw).1, show s.current_turn + (k + 1) = s.current_turn + k + 1 from rfl,
            (mod_succ_of_wrap h1 hm).1]
      · have hm : (s.current_turn + k) % s.players.length + 1 < s.players.length := by
          rw [hp, hc] at hw
          omega
        rw [(hstep.2 (by rw [hp, hc]; omega)).1, hc,
            show s.current_turn + (k + 1) = s.current_turn + k + 1 from rfl,
            (mod_succ_of_no_wrap h1 hm).1]
    · by_cases hw : ((advance_turn now)^[k] s).players.length ≤
          ((advance_turn now)^[k] s).current_turn + 1
      · have hm : (s.current_turn + k) % s.players.length + 1 = s.players.length := by
          rw [hp, hc] at hw
          omega
        rw [(hstep.1 hw).2, hr, show s.current_turn + (k + 1) = s.current_turn + k + 1 from rfl,
            (mod_succ_of_wrap h1 hm).2]
        omega
      · have hm : (s.current_turn + k) % s.players.length + 1 < s.players.length := by
          rw [hp, hc] at hw
          omega
        rw [(hstep.2 (by rw [hp, hc]; omega)).2, hr,
            show s.current_turn + (k + 1) = s.current_turn + k + 1 from rfl,
            (mod_succ_of_no_wrap h1 hm).2]

/-- C2: from any state with more than one participant and a valid turn
pointer, N advances (N the roster size) return the pointer to its start and
grow the round by exactly one; a single advance increments the pointer,
wrapping from the last participant to 0 together with the round increment,
and always resets the turn-start timestamp. -/
theorem advance_round_trip (now : Nat) (s : GameState)
    (h1 : 1 < s.players.length) (h2 : s.current_turn < s.players.length) :
    ((advance_turn now)^[s.players.length] s).current_turn = s.current_turn ∧
    ((advance_turn now)^[s.players.length] s).round = s.round + 1 ∧
    (advance_turn now s).turn_start_time = now ∧
    (s.current_turn + 1 < s.players.length →
       (advance_turn now s).current_turn = s.current_turn + 1 ∧
       (advance_turn now s).round = s.round) ∧
    (s.current_turn + 1 = s.players.length →
       (advance_turn now s).current_turn = 0 ∧
       (advance_turn now s).round = s.round + 1) := by
  obtain ⟨hp, hc, hr⟩ := advance_turn_iterate now s s.players.length h1 h2
  refine ⟨?_, ?_, advance_turn_time now s, ?_, ?_⟩
  · rw [hc, Nat.add_mod_right]
    exact Nat.mod_eq_of_lt h2
  · rw [hr, Nat.add_div_right _ (by omega : 0 < s.players.length),
        Nat.div_eq_of_lt h2]
  · exact fun h3 => (advance_turn_step now s h1).2 h3
  · exact fun h3 => (advance_turn_step now s h1).1 (by omega)

theorem advance_round_trip_witness :
    ((advance_turn 9)^[wState.players.length] wState).current_turn = wState.current_turn ∧
    ((advance_turn 9)^[wState.players.length] wState).round = wState.round + 1 ∧
    (advance_turn 9 wState).turn_start_time = 9 ∧
    (advance_turn 9 wState).current_turn = wState.current_turn + 1 ∧
    (advance_turn 9 wState).round = wState.round := by
  obtain ⟨a, b, c, d, e⟩ := advance_round_trip 9 wState (by decide) (by decide)
  exact ⟨a, b, c, (d (by decide)).1, (d (by decide)).2⟩

/-! ## History window (C5) -/

/-- The last MAX_HISTORY entries of a list (Python history[-MAX_HISTORY:]). -/
def lastN (l : List HistEntry) : List HistEntry := l.drop (l.length - MAX_HISTORY)

/-- A list within the window is its own last-window slice. -/
theorem lastN_of_le (l : List HistEntry) (h : l.length ≤ MAX_HISTORY) : lastN l = l := by
  unfold lastN
  rw [show l.length - MAX_HISTORY = 0 by omega, List.drop_zero]

/-- appendHistory is exactly: append, then keep the last MAX_HISTORY
entries. -/
theorem appendHistory_eq_lastN (h : List HistEntry) (e : HistEntry) :
    appendHistory h e = lastN (h ++ [e]) := by
  unfold appendHistory lastN
  by_cases hlt : MAX_HISTORY < (h ++ [e]).length
  · rw [if_pos hlt]
  · rw [if_neg hlt, show (h ++ [e]).length - MAX_HISTORY = 0 by omega, List.drop_zero]

/-- Dropping a prefix that leaves at least a full window does not change the
last-window slice. -/
theorem lastN_drop (l : List HistEntry) (j : Nat) (h : j + MAX_HISTORY ≤ l.length) :
    lastN (l.drop j) = lastN l := by
  unfold lastN
  rw [List.length_drop, List.drop_drop]
  congr 1
  omega

/-- Keeping only the last window before appending more entries does not
change the final last-window slice. -/
theorem lastN_lastN_append (a b : List HistEntry) :
    lastN (lastN a ++ b) = lastN (a ++ b) := by
  by_cases hle : a.length ≤ MAX_HISTORY
  · rw [lastN_of_le a hle]
  · have hd : lastN a ++ b = (a ++ b).drop (a.length - MAX_HISTORY) := by
      unfold lastN
      rw [List.drop_append_of_le_length (by omega)]
    rw [hd, lastN_drop]
    rw [List.length_append]
    omega

/-- Folding appendHistory over a non-empty batch yields the last window of
the fully appended list. -/
theorem foldl_appendHistory (es : List HistEntry) (e : HistEntry) (h : List HistEntry) :
    List.foldl appendHistory h (e :: es) = lastN (h ++ e :: es) := by
  induction es generalizing h e with
  | nil =>
    simp only [List.foldl_cons, List.foldl_nil]
    exact appendHistory_eq_lastN h e
  | cons e2 es2 ih =>
    have hstep : List.foldl appendHistory h (e :: e2 :: es2) =
        List.foldl appendHistory (appendHistory h e) (e2 :: es2) := rfl
    rw [hstep, ih, appendHistory_eq_lastN, lastN_lastN_append]
    congr 1
    simp

/-- C5: the history never exceeds the MAX_HISTORY window after an append;
appending 25 entries in order leaves exactly entries 6 through 25 present,
in order; and while the bound is not exceeded an append only appends, never
reordering or dropping. -/
theorem history_window_fifo (h : List HistEntry) (e : HistEntry)
    (es : List HistEntry) (h25 : es.length = 25) :
    (appendHistory h e).length ≤ MAX_HISTORY ∧
    List.foldl appendHistory h es = es.drop 5 ∧
    ((h ++ [e]).length ≤ MAX_HISTORY → appendHistory h e = h ++ [e]) := by
  refine ⟨?_, ?_, ?_⟩
  · unfold appendHistory
    by_cases hlt : MAX_HISTORY < (h ++ [e]).length
    · rw [if_pos hlt, List.length_drop]
      omega
    · rw [if_neg hlt]
      omega
  · obtain ⟨e1, es1, rfl⟩ : ∃ e1 es1, es = e1 :: es1 := by
      cases es with
      | nil => simp at h25
      | cons a b => exact ⟨a, b, rfl⟩
    rw [foldl_appendHistory]
    unfold lastN
    rw [List.length_append, h25,
        show h.length + 25 - MAX_HISTORY = h.length + 5 by
          rw [show MAX_HISTORY = 20 from rfl]; omega,
        ← List.drop_drop, List.drop_left]
  · intro hle
    unfold appendHistory
    rw [if_neg (by omega)]

/-- A concrete batch of 25 history entries. -/
def wEntries : List HistEntry :=
  (List.range 25).map (fun i => { player := "p", action := toString i, response := "r" })

theorem history_window_fifo_witness :
    (appendHistory [] ({ player := "p", action := "a", response := "r" })).length ≤
      MAX_HISTORY ∧
    List.foldl appendHistory [] wEntries = wEntries.drop 5 ∧
    appendHistory [] ({ player := "p", action := "a", response := "r" }) =
      [] ++ [{ player := "p", action := "a", response := "r" }] := by
  obtain ⟨a, b, c⟩ :=
    history_window_fifo [] ({ player := "p", action := "a", response := "r" }) wEntries
      (by decide)
  exact ⟨a, b, c (by decide)⟩

/-! ## Skill updates (C6, C10) -/

/-- The skill value stored for a player in a state, if any. -/
def skillOf (s : GameState) (player skill : String) : Option Int :=
  match getKey player s.characters with
  | none => none
  | some c => getKey skill c.skills

/-- The effect of one matched marker on a sheet: the named skill becomes the
maximum of its current value (default 0) and the marker value. -/
def bumpSkill (c : CharSheet) (skill : String) (dv : Nat) : CharSheet :=
  { c with skills := setKey skill (max ((getKey skill c.skills).getD 0) ((dv : Int))) c.skills }

/-- Folding skill markers over a skills map never decreases a stored
value. -/
theorem foldl_applyMarker_mono (ms : List (String × Nat)) (skills : List (String × Int))
    (skill : String) (v : Int) (h : getKey skill skills = some v) :
    ∃ w, getKey skill (ms.foldl applyMarker skills) = some w ∧ v ≤ w := by
  induction ms generalizing skills v with
  | nil => exact ⟨v, h, le_refl v⟩
  | cons m ms2 ih =>
    simp only [List.foldl_cons]
    by_cases hk : m.1 = skill
    · have hd : (getKey m.1 skills).getD 0 = v := by rw [hk, h]; rfl
      have hnew : getKey skill (applyMarker skills m) =
          some (max ((getKey m.1 skills).getD 0) ((m.2 : Int))) := by
        unfold applyMarker
        rw [← hk]
        exact getKey_setKey_self m.1 _ skills
      obtain ⟨w, hw, hle⟩ := ih (applyMarker skills m) _ hnew
      refine ⟨w, hw, le_trans ?_ hle⟩
      rw [hd]
      exact le_max_left v ((m.2 : Int))
    · have hnew : getKey skill (applyMarker skills m) = some v := by
        unfold applyMarker
        rw [getKey_setKey_ne m.1 skill _ skills (fun hq => hk hq.symm)]
        exact h
      exact ih (applyMarker skills m) v hnew

/-- A text whose scan is a single marker bumps exactly that skill. -/
theorem applyMarkers_single (c : CharSheet) (t skill : String) (dv : Nat)
    (hscan : scanSkills t.toList = [(skill, dv)]) :
    applyMarkers c t = bumpSkill c skill dv := by
  unfold applyMarkers bumpSkill
  rw [hscan]
  simp only [List.foldl_cons, List.foldl_nil, applyMarker]

/-- Applying a text whose scan is a single marker rewrites exactly the acting
player's sheet, with that skill bumped. -/
theorem update_single_marker (s : GameState) (t player skill : String) (c : CharSheet)
    (dv : Nat) (hc : getKey player s.characters = some c)
    (hscan : scanSkills t.toList = [(skill, dv)]) :
    getKey player (update_skills_from_ai s t player).characters =
      some (bumpSkill c skill dv) := by
  simp only [update_skills_from_ai, hc]
  rw [applyMarkers_single c t skill dv hscan]
  exact getKey_setKey_self _ _ _

/-- C6: skill updates parsed from narration text are monotonic: a stored
skill value never decreases under update_skills_from_ai; a matched marker
sets the acting player's skill to the maximum of its current value
(defaulting to 0 when the skill is absent) and the marker value; hence
applying [Skill Stealth +2] and then [Skill Stealth +1] leaves Stealth
at 2. -/
theorem skill_updates_monotonic :
    (∀ (s : GameState) (t player skill : String) (v : Int),
       skillOf s player skill = some v →
       ∃ w, skillOf (update_skills_from_ai s t player) player skill = some w ∧ v ≤ w) ∧
    (∀ (s : GameState) (t player skill : String) (c : CharSheet) (dv : Nat),
       getKey player s.characters = some c →
       scanSkills t.toList = [(skill, dv)] →
       skillOf (update_skills_from_ai s t player) player skill =
         some (max ((getKey skill c.skills).getD 0) ((dv : Int)))) ∧
    (∀ (s : GameState) (player : String) (c : CharSheet),
       getKey player s.characters = some c →
       getKey "Stealth" c.skills = none →
       skillOf (update_skills_from_ai
                 (update_skills_from_ai s "[Skill Stealth +2]" player)
                 "[Skill Stealth +1]" player) player "Stealth" = some 2) := by
  refine ⟨?_, ?_, ?_⟩
  · intro s t player skill v hv
    cases hc : getKey player s.characters with
    | none => simp [skillOf, hc] at hv
    | some c =>
      simp only [skillOf, hc] at hv
      simp only [skillOf, update_skills_from_ai, hc]
      rw [getKey_setKey_self]
      exact foldl_applyMarker_mono _ _ _ _ hv
  · intro s t player skill c dv hc hscan
    have h1 := update_single_marker s t player skill c dv hc hscan
    simp only [skillOf, h1]
    exact getKey_setKey_self _ _ _
  · intro s player c hc hnone
    have hscan2 : scanSkills ("[Skill Stealth +2]".toList) = [("Stealth", 2)] := by decide
    have hscan1 : scanSkills ("[Skill Stealth +1]".toList) = [("Stealth", 1)] := by decide
    have h1 := update_single_marker s "[Skill Stealth +2]" player "Stealth" c 2 hc hscan2
    simp only [bumpSkill, hnone, Option.getD_none] at h1
    rw [show max (0 : Int) ((2 : Nat) : Int) = 2 from by decide] at h1
    have h2 := update_single_marker (update_skills_from_ai s "[Skill Stealth +2]" player)
      "[Skill Stealth +1]" player "Stealth" _ 1 h1 hscan1
    simp only [bumpSkill, getKey_setKey_self, Option.getD_some] at h2
    rw [show max (2 : Int) ((1 : Nat) : Int) = 2 from by decide] at h2
    simp only [skillOf, h2]
    exact getKey_setKey_self _ _ _

theorem skill_updates_monotonic_witness :
    skillOf (update_skills_from_ai
              (update_skills_from_ai wState "[Skill Stealth +2]" "Ava")
              "[Skill Stealth +1]" "Ava") "Ava" "Stealth" = some 2 :=
  skill_updates_monotonic.2.2 wState "Ava" blankChar (by decide) (by decide)

/-- C10: update_skills_from_ai touches only the acting player's skills
mapping: every non-characters field is unchanged, every other player's sheet
is unchanged, the actor's attributes, inventory and notes are unchanged, and
with no sheet for the actor the whole state is unchanged. -/
theorem skill_update_frame (s : GameState) (t player : String) :
    (getKey player s.characters = none → update_skills_from_ai s t player = s) ∧
    (update_skills_from_ai s t player).players = s.players ∧
    (update_skills_from_ai s t player).current_turn = s.current_turn ∧
    (update_skills_from_ai s t player).round = s.round ∧
    (update_skills_from_ai s t player).turn_start_time = s.turn_start_time ∧
    (update_skills_from_ai s t player).extra_turn_round = s.extra_turn_round ∧
    (update_skills_from_ai s t player).scene = s.scene ∧
    (update_skills_from_ai s t player).last_action = s.last_action ∧
    (update_skills_from_ai s t player).history = s.history ∧
    (∀ q, q ≠ player →
       getKey q (update_skills_from_ai s t player).characters = getKey q s.characters) ∧
    (∀ c c2, getKey player s.characters = some c →
       getKey player (update_skills_from_ai s t player).characters = some c2 →
       c2.attributes = c.attributes ∧ c2.inventory = c.inventory ∧ c2.notes = c.notes) := by
  cases hc : getKey player s.characters with
  | none =>
    have hid : update_skills_from_ai s t player = s := by
      unfold update_skills_from_ai
      rw [hc]
    rw [hid]
    refine ⟨fun _ => rfl, rfl, rfl, rfl, rfl, rfl, rfl, rfl, rfl, fun q hq => rfl, ?_⟩
    intro c c2 h1 h2
    exact absurd h1 (by simp)
  | some c0 =>
    have hupd : update_skills_from_ai s t player =
        { s with characters := setKey player (applyMarkers c0 t) s.characters } := by
      unfold update_skills_from_ai
      rw [hc]
    rw [hupd]
    refine ⟨?_, rfl, rfl, rfl, rfl, rfl, rfl, rfl, rfl, ?_, ?_⟩
    · intro hnone
      exact absurd hnone (by simp)
    · intro q hq
      exact getKey_setKey_ne player q _ s.characters hq
    · intro c c2 h1 h2
      injection h1 with h1e
      rw [getKey_setKey_self] at h2
      injection h2 with h2e
      subst h1e
      rw [← h2e]
      exact ⟨rfl, rfl, rfl⟩

theorem skill_update_frame_witness :
    update_skills_from_ai wState "[Skill Stealth +4]" "Zed" = wState ∧
    (update_skills_from_ai wState "[Skill Stealth +4]" "Ava").players = wState.players ∧
    getKey "Bo" (update_skills_from_ai wState "[Skill Stealth +4]" "Ava").characters =
      getKey "Bo" wState.characters ∧
    (bumpSkill blankChar "Stealth" 4).attributes = blankChar.attributes ∧
    (bumpSkill blankChar "Stealth" 4).inventory = blankChar.inventory ∧
    (bumpSkill blankChar "Stealth" 4).notes = blankChar.notes := by
  obtain ⟨-, b, -, -, -, -, -, -, -, j, k⟩ :=
    skill_update_frame wState "[Skill Stealth +4]" "Ava"
  obtain ⟨a2, -⟩ := skill_update_frame wState "[Skill Stealth +4]" "Zed"
  refine ⟨a2 (by decide), b, j "Bo" (by decide), ?_⟩
  exact k blankChar (bumpSkill blankChar "Stealth" 4) (by decide) (by decide)

/-! ## Turn validation (C3) -/

/-- C3: an inbound action from an already-registered actor who is not the
current participant of a multi-player roster is rejected: the returned state
is exactly the loaded state and the only effect is the rejection reply, so
no narration call is made and nothing is persisted. -/
theorem out_of_turn_rejected (ai : String) (now : Nat) (player content : String)
    (s : GameState) (hmem : player ∈ s.players) (hN : 1 < s.players.length)
    (hcur : current_player s ≠ some player) :
    on_message ai now player content s = (s, [Effect.reply (notYourTurnMsg s)]) := by
  have hjoin : joinStep player s = (s, ([] : List Effect)) := by
    unfold joinStep
    rw [if_pos hmem]
  simp only [on_message, hjoin]
  rw [if_pos ⟨hN, hcur⟩]
  simp

theorem out_of_turn_rejected_witness :
    on_message "The cavern glitters." 99 "Bo" "I sneak ahead" wState =
      (wState, [Effect.reply (notYourTurnMsg wState)]) :=
  out_of_turn_rejected "The cavern glitters." 99 "Bo" "I sneak ahead" wState
    (by decide) (by decide) (by decide)

/-! ## Timeout supervisor (C4) -/

/-- C4: with a multi-player roster, once the elapsed time since the turn
started reaches the timeout threshold the supervisor emits a skip
notification naming the pre-advance current participant, advances the turn,
persists the advanced state and never makes a narration call; below the
threshold it is a no-op. -/
theorem timeout_skips_current (now : Nat) (s : GameState)
    (hN : 1 < s.players.length) :
    ((TURN_TIMEOUT_SECONDS : Int) ≤ (now : Int) - (s.turn_start_time : Int) →
       timeout_checker now true s =
         (advance_turn now s,
          [Effect.reply ("[TIMEOUT] **" ++ optStr (current_player s) ++
             " hesitates, losing precious seconds.**"),
           Effect.persist (advance_turn now s)]) ∧
       Effect.narration ∉ (timeout_checker now true s).2) ∧
    ((now : Int) - (s.turn_start_time : Int) < (TURN_TIMEOUT_SECONDS : Int) →
       timeout_checker now true s = (s, [])) := by
  constructor
  · intro h
    have heq : timeout_checker now true s =
        (advance_turn now s,
         [Effect.reply ("[TIMEOUT] **" ++ optStr (current_player s) ++
            " hesitates, losing precious seconds.**"),
          Effect.persist (advance_turn now s)]) := by
      unfold timeout_checker
      rw [if_neg (by omega), if_neg (not_lt.mpr h)]
      simp
    refine ⟨heq, ?_⟩
    rw [heq]
    simp
  · intro h
    unfold timeout_checker
    rw [if_neg (by omega), if_pos h]

/-- A two-player session whose turn (Bo's) started at time 0. -/
def wLate : GameState := { wState with current_turn := 1, turn_start_time := 0 }

theorem timeout_skips_current_witness :
    timeout_checker 100000 true wLate =
      (advance_turn 100000 wLate,
       [Effect.reply ("[TIMEOUT] **" ++ optStr (current_player wLate) ++
          " hesitates, losing precious seconds.**"),
        Effect.persist (advance_turn 100000 wLate)]) ∧
    Effect.narration ∉ (timeout_checker 100000 true wLate).2 ∧
    (advance_turn 100000 wLate).current_turn = 0 ∧
    (advance_turn 100000 wLate).round = wLate.round + 1 := by
  obtain ⟨h1, -⟩ := timeout_skips_current 100000 wLate (by decide)
  obtain ⟨ha, hb⟩ := h1 (by decide)
  exact ⟨ha, hb, by decide, by decide⟩

/-! ## Load-time self healing (C7) -/

/-- C7 counterexample: the claimed invariant fails on a persisted blob with a
negative stored turn pointer and a non-empty roster: load_state resets the
pointer only when it is at least the roster length, so -1 survives the load
and 0 <= turn_index does not hold. -/
theorem load_heal_negative_counterexample :
    load_state_heal ["Ava"] (-1) = -1 ∧
    ¬ (0 ≤ load_state_heal ["Ava"] (-1) ∧
       load_state_heal ["Ava"] (-1) < ((["Ava"] : List String).length : Int)) := by
  decide

/-- C7 (amended): for a persisted blob whose stored turn pointer is
non-negative, after load the pointer is in range whenever the roster is
non-empty, any too-large pointer having been reset to 0. -/
theorem load_heal_in_range (players : List String) (ct : Int)
    (hne : players ≠ []) (hnn : 0 ≤ ct) :
    0 ≤ load_state_heal players ct ∧
    load_state_heal players ct < (players.length : Int) ∧
    ((players.length : Int) ≤ ct → load_state_heal players ct = 0) := by
  have hlen : 0 < players.length := List.length_pos.mpr hne
  unfold load_state_heal
  by_cases h : (players.length : Int) ≤ ct
  · rw [if_pos h]
    exact ⟨le_refl 0, by exact_mod_cast hlen, fun _ => rfl⟩
  · rw [if_neg h]
    exact ⟨hnn, by omega, fun hc => absurd hc h⟩

theorem load_heal_in_range_witness :
    0 ≤ load_state_heal ["Ava", "Bo"] 5 ∧
    load_state_heal ["Ava", "Bo"] 5 < ((["Ava", "Bo"] : List String).length : Int) ∧
    (((["Ava", "Bo"] : List String).length : Int) ≤ 5 →
       load_state_heal ["Ava", "Bo"] 5 = 0) :=
  load_heal_in_range ["Ava", "Bo"] 5 (by decide) (by decide)
